import Mathlib

/-!
Verification of the minelaunch launcher core against its specification.

The Rust sources are shallowly embedded:
  * `src/util.rs`    : `check_file`, the OS/arch naming wrappers.
  * `src/env.rs`     : `Environment::resolve` (the `${...}` template regex).
  * `src/minecraft.rs`: `spec_rules_satisfied`, the classpath portion of
    `construct_launch_args`, `get_version_spec`, `download_minecraft_version`,
    `download_minecraft_jar`, `download_java`.

External effects are made explicit: the filesystem is a map from path to
file state, the network is a function from URL to fetched bytes, the JSON
parser and the sha1 hash are abstract function parameters. A Rust `panic!`
or `.unwrap()` failure is an `Except.error` / `none` result.
-/

namespace Minelaunch

/-! ### Filesystem model

A file is absent, present with readable byte content, or present but not
readable (e.g. permission denied): in the last case `Path::exists()` is
true yet `File::open(..).unwrap()` panics. -/

inductive FileState where
  | absent
  | unreadable
  | present (content : List Nat)
deriving DecidableEq, Repr

/-- A filesystem maps a path to the state of the file stored there. -/
def FS : Type := String → FileState

/-- Writing bytes to a path (the effect of creating the file and
`write_all`-ing the content). -/
def FS.write (fs : FS) (p : String) (content : List Nat) : FS :=
  fun q => if q = p then .present content else fs q

/-! ### util.rs -/

/-- `check_file` from `src/util.rs` (lines 6-26).  `hash` abstracts
`Sha1::from(..).hexdigest()`.  The Rust function panics (`.unwrap()`)
when the file exists but cannot be opened or read; that is the
`Except.error ()` outcome. -/
def check_file (hash : List Nat → String) (fs : FS)
    (file_path : String) (sha1 : String) (size : Nat) : Except Unit Bool :=
  match fs file_path with
  | .absent => .ok false
  | .unreadable => .error ()
  | .present content =>
    if content.length ≠ size then .ok false
    else if hash content ≠ sha1 then .ok false
    else .ok true

/-- `get_os_minecraft` from `src/util.rs`: translate the detected OS name
to the minecraft naming convention. -/
def get_os_minecraft (os : String) : String :=
  if os = "macos" then "osx" else os

/-- `get_os_java` from `src/util.rs`. -/
def get_os_java (os : String) : String :=
  if os = "macos" then "mac" else os

/-- `get_arch_java` from `src/util.rs`. -/
def get_arch_java (arch : String) : String :=
  if arch = "x86" then "x32" else arch

/-! ### env.rs : template resolution

`Environment::resolve` applies the regex `\$\{([^\}]*)\}` with
`replace_all`.  A match starts at `'$' '{'` and its capture runs to the
first `'}'` (the class `[^}]*` cannot cross a brace).  An unresolved key
prints one diagnostic line and substitutes the empty string; we count the
diagnostics in the second component. -/

/-- Reading a map lookup: `self.map.get(&captures[1])` from `env.rs`. -/
def EnvMap : Type := String → Option String

/-- Character-level model of `REPLACEMENT_REGEX.replace_all` (env.rs
lines 34-44): scan left to right; at `'$' '{'` with a later `'}'`, the
capture is everything up to that first `'}'`; bound keys substitute their
value, unbound keys substitute `""` and bump the diagnostic counter;
anywhere else the character is copied. -/
def resolve_chars (env : EnvMap) : List Char → List Char × Nat
  | [] => ([], 0)
  | '$' :: '{' :: rest =>
    if rest.contains '}' then
      let name := rest.takeWhile (fun c => c ≠ '}')
      let after := (rest.dropWhile (fun c => c ≠ '}')).drop 1
      match env (String.mk name) with
      | some v =>
        let r := resolve_chars env after
        (v.data ++ r.1, r.2)
      | none =>
        let r := resolve_chars env after
        (r.1, r.2 + 1)
    else
      let r := resolve_chars env ('{' :: rest)
      ('$' :: r.1, r.2)
  | c :: rest =>
    let r := resolve_chars env rest
    (c :: r.1, r.2)
termination_by l => l.length
decreasing_by
  all_goals simp only [List.length_cons]
  all_goals
    first
      | omega
      | (have h1 : (rest.dropWhile (fun c => c ≠ '}')).length ≤ rest.length :=
           (List.dropWhile_suffix _).length_le
         have h2 := List.length_drop 1 (rest.dropWhile (fun c => c ≠ '}'))
         omega)

/-- Does the template contain any `${...}` token (i.e. does the regex
match anywhere)?  A match needs a `'$' '{'` pair with a `'}'` somewhere
after it; no match can start at the `'{'` itself, so scanning may step
past both characters at once. -/
def has_replacement_token : List Char → Bool
  | [] => false
  | '$' :: '{' :: rest => rest.contains '}' || has_replacement_token rest
  | _ :: rest => has_replacement_token rest

/-- `Environment::resolve` from `src/env.rs` (lines 34-44), returning the
resolved string together with the number of "Need to define" diagnostics
emitted. -/
def resolve (env : EnvMap) (fmt_string : String) : String × Nat :=
  let r := resolve_chars env fmt_string.data
  (String.mk r.1, r.2)

/-! ### minecraft.rs : spec data types

Only the fields read by the embedded functions are carried; the remaining
serde fields of the Rust structs (urls, times, unparsed metadata) never
influence the modelled control flow. -/

/-- `Download` from `src/minecraft.rs` (lines 83-89). -/
structure Download where
  path : Option String
  sha1 : String
  size : Nat
  url : String
deriving DecidableEq, Repr

/-- `LibraryNatives` from `src/minecraft.rs` (lines 109-114). -/
structure LibraryNatives where
  linux : Option String
  osx : Option String
  windows : Option String
deriving DecidableEq, Repr

/-- `LibraryDownloads` from `src/minecraft.rs` (lines 101-107); the
classifier map is carried as an association list. -/
structure LibraryDownloads where
  artifact : Option Download
  classifiers : Option (List (String × Download))
deriving DecidableEq, Repr

/-- `RuleOS` from `src/minecraft.rs` (lines 121-126). -/
structure RuleOS where
  name : Option String
  version : Option String
  arch : Option String
deriving DecidableEq, Repr

/-- `Rule` from `src/minecraft.rs` (lines 128-133); the feature map is an
association list of flag names to booleans. -/
structure Rule where
  action : String
  os : Option RuleOS
  features : Option (List (String × Bool))
deriving DecidableEq, Repr

/-- `Library` from `src/minecraft.rs` (lines 135-142); the `extract`
exclusion list is not read by any embedded function and is omitted. -/
structure Library where
  downloads : LibraryDownloads
  name : String
  natives : Option LibraryNatives
  rules : Option (List Rule)
deriving DecidableEq, Repr

/-- `MinecraftVersion` from `src/minecraft.rs` (lines 29-38). -/
structure MinecraftVersion where
  id : String
  version_type : String
  url : String
deriving DecidableEq, Repr

/-- `VersionDownloads` from `src/minecraft.rs` (lines 91-99). -/
structure VersionDownloads where
  client : Download
  server : Option Download
deriving DecidableEq, Repr

/-- `VersionSpec` from `src/minecraft.rs` (lines 152-171), restricted to
the fields the embedded functions read. -/
structure VersionSpec where
  id : String
  downloads : VersionDownloads
  libraries : List Library
  assets : String
  main_class : String
  version_type : String
deriving DecidableEq, Repr

/-! ### minecraft.rs : rule evaluation -/

/-- The `match rule.action.as_str()` at the top of `spec_rules_satisfied`
(minecraft.rs lines 682-686): `none` is the `panic!("Unknown rule action")`
arm. -/
def rule_allow_match (action : String) : Option Bool :=
  match action with
  | "allow" => some true
  | "disallow" => some false
  | _ => none

/-- The os/arch matching of one rule's `os` constraint (minecraft.rs lines
691-700): an absent sub-field matches unconditionally, a present one must
equal the platform fact (`get_os_minecraft()` resp. `get_arch()`). -/
def rule_os_matches (os arch : String) (ros : RuleOS) : Bool :=
  let os_ok : Bool :=
    match ros.name with
    | some s => s == get_os_minecraft os
    | none => true
  let arch_ok : Bool :=
    match ros.arch with
    | some s => s == arch
    | none => true
  os_ok && arch_ok

/-- `spec_rules_satisfied` from `src/minecraft.rs` (lines 679-718), over an
explicit platform `(os, arch)` (the Rust code reads the compile-time
platform via `get_os_minecraft()` / `get_arch()`).  `none` models the
`panic!("Unknown rule action")`. -/
def spec_rules_satisfied (os arch : String) : List Rule → Option Bool
  | [] => some true
  | rule :: rest =>
    match rule_allow_match rule.action with
    | none => none
    | some allow_match =>
      match rule.os with
      | some ros =>
        if rule_os_matches os arch ros && !allow_match then some false
        else if !(rule_os_matches os arch ros) && allow_match then some false
        else if rule.features.isSome then some false
        else spec_rules_satisfied os arch rest
      | none =>
        if rule.features.isSome then some false
        else spec_rules_satisfied os arch rest

/-- Whether a single rule lets evaluation continue: absent `os` constraint
never contradicts (the loop body only returns inside the `os.is_some()`
block), a present one passes exactly when its match-state equals the
action being `allow`. -/
def rule_passes (os arch : String) (r : Rule) : Bool :=
  match r.os with
  | none => true
  | some ros => rule_os_matches os arch ros == (r.action == "allow")

/-! ### minecraft.rs : classpath construction

The classpath-building slice of `construct_launch_args` (minecraft.rs
lines 551-605): walk the spec's libraries in order; skip a library whose
rules are present and not satisfied; for each remaining library with a
general artifact, append `{minecraft_path}/libraries/{path}` followed by
the platform separator; finally append the client jar path.  `none`
models a panic, from `spec_rules_satisfied` or from the
`artifact.path.unwrap()`. -/

/-- The path separator appended after each library entry (minecraft.rs
lines 571-576): `;` on Windows, `:` otherwise. -/
def path_sep (os : String) : String :=
  if os = "windows" then ";" else ":"

/-- The loop of minecraft.rs lines 555-603 restricted to its classpath
effect, producing everything up to (not including) the final client jar. -/
def construct_classpath_aux (os arch minecraft_path : String) :
    List Library → Option String
  | [] => some ""
  | lib :: rest =>
    let proceed : Option Bool :=
      match lib.rules with
      | some rules => spec_rules_satisfied os arch rules
      | none => some true
    match proceed with
    | none => none
    | some false => construct_classpath_aux os arch minecraft_path rest
    | some true =>
      match lib.downloads.artifact with
      | none => construct_classpath_aux os arch minecraft_path rest
      | some artifact =>
        match artifact.path with
        | none => none
        | some p =>
          (construct_classpath_aux os arch minecraft_path rest).map
            (fun tail =>
              minecraft_path ++ "/libraries/" ++ p ++ path_sep os ++ tail)

/-- The full classpath string bound into the environment (minecraft.rs
lines 554-605): the library entries followed by the version's own client
jar path. -/
def construct_classpath (os arch minecraft_path version_id : String)
    (libraries : List Library) : Option String :=
  (construct_classpath_aux os arch minecraft_path libraries).map
    (fun cp =>
      cp ++ (minecraft_path ++ "/versions/" ++ version_id ++ "/" ++
             version_id ++ ".jar"))

/-- A library contributes a classpath entry exactly when its rules (if
any) are satisfied and it has a general artifact with a declared path. -/
def lib_included (os arch : String) (lib : Library) : Bool :=
  match lib.rules with
  | none => true
  | some rules => spec_rules_satisfied os arch rules == some true

/-- The classpath entry a library would contribute. -/
def lib_entry (minecraft_path : String) (lib : Library) : Option String :=
  lib.downloads.artifact.bind
    (fun a => a.path.map (fun p => minecraft_path ++ "/libraries/" ++ p))

/-- The classpath entries of the rule-satisfied libraries, in declared
order. -/
def classpath_entries (os arch minecraft_path : String)
    (libs : List Library) : List String :=
  libs.filterMap
    (fun lib => if lib_included os arch lib then lib_entry minecraft_path lib
                else none)

/-- Joining path segments with a separator: the shape the classpath loop
produces. -/
def join_sep (sep : String) : List String → String
  | [] => ""
  | [s] => s
  | s :: rest => s ++ sep ++ join_sep sep rest

/-- A library's rules, when present, evaluate without panicking. -/
def lib_rules_defined (os arch : String) (lib : Library) : Bool :=
  match lib.rules with
  | none => true
  | some rules => (spec_rules_satisfied os arch rules).isSome

/-- An included library's general artifact, when present, declares a
relative path (so the `artifact.path.unwrap()` does not panic). -/
def lib_artifact_path_ok (os arch : String) (lib : Library) : Bool :=
  if lib_included os arch lib then
    match lib.downloads.artifact with
    | none => true
    | some a => a.path.isSome
  else true

/-! ### minecraft.rs : version / spec resolution

`get_version_spec`, `download_minecraft_version` and
`download_minecraft_jar` (minecraft.rs lines 318-377) are embedded with an
explicit disk state and abstract network and parser.  Every `.unwrap()` in
the Rust code is a potential panic; the panics are classified by the kind
of the value being unwrapped: a `reqwest` error (`networkError`), a
`serde_json` error (`parseError`), or a `std::io` error (`ioError`). -/

/-- The distinct kinds of fatal error a resolution attempt can surface. -/
inductive LaunchError where
  | networkError
  | parseError
  | ioError
deriving DecidableEq, Repr

/-- The disk: file contents, which directories exist, and which paths the
filesystem lets us create/write (a `false` entry makes `File::create` /
`create_dir_all` / `write_all` fail). -/
structure Disk where
  fs : FS
  dirs : String → Bool
  writable : String → Bool

/-- `File::create` + `write_all` at a path. -/
def Disk.writeFile (d : Disk) (p : String) (content : List Nat) :
    Except Unit Disk :=
  if d.writable p then
    .ok { d with fs := fun q => if q = p then .present content else d.fs q }
  else .error ()

/-- `fs::create_dir_all` at a path. -/
def Disk.createDirAll (d : Disk) (p : String) : Except Unit Disk :=
  if d.writable p then
    .ok { d with dirs := fun q => if q = p then true else d.dirs q }
  else .error ()

/-- `download_minecraft_jar` from `src/minecraft.rs` (lines 372-377):
fetch the client jar from its descriptor's url and write it to
`{minecraft_path}/versions/{id}/{id}.jar`. -/
def download_minecraft_jar (net : String → Except Unit (List Nat))
    (d : Disk) (minecraft_path : String) (version : VersionSpec) :
    Except LaunchError Disk :=
  match net version.downloads.client.url with
  | .error _ => .error .networkError
  | .ok jar_bytes =>
    let jar_path := minecraft_path ++ "/versions/" ++ version.id ++ "/" ++
                    version.id ++ ".jar"
    match d.writeFile jar_path jar_bytes with
    | .error _ => .error .ioError
    | .ok d2 => .ok d2

/-- `download_minecraft_version` from `src/minecraft.rs` (lines 345-370):
create the version folder if missing, fetch the spec JSON, persist it
verbatim, parse it, then fetch the client jar; return the parsed spec. -/
def download_minecraft_version (parse : List Nat → Except Unit VersionSpec)
    (net : String → Except Unit (List Nat)) (d : Disk)
    (minecraft_path : String) (version : MinecraftVersion) :
    Except LaunchError (VersionSpec × Disk) :=
  let dir_path := minecraft_path ++ "/versions/" ++ version.id ++ "/"
  let step1 : Except LaunchError Disk :=
    if d.dirs dir_path then .ok d
    else
      match d.createDirAll (minecraft_path ++ "/versions/" ++ version.id) with
      | .error _ => .error .ioError
      | .ok d1 => .ok d1
  match step1 with
  | .error e => .error e
  | .ok d1 =>
    match net version.url with
    | .error _ => .error .networkError
    | .ok spec_bytes =>
      let spec_path := minecraft_path ++ "/versions/" ++ version.id ++ "/" ++
                       version.id ++ ".json"
      match d1.writeFile spec_path spec_bytes with
      | .error _ => .error .ioError
      | .ok d2 =>
        match parse spec_bytes with
        | .error _ => .error .parseError
        | .ok spec =>
          match download_minecraft_jar net d2 minecraft_path spec with
          | .error e => .error e
          | .ok d3 => .ok (spec, d3)

/-- `get_version_spec` from `src/minecraft.rs` (lines 318-343): if a local
spec file exists, read and parse it, then check the referenced client jar
with `check_file` and re-download only the jar when damaged; otherwise
fall through to `download_minecraft_version`. -/
def get_version_spec (hash : List Nat → String)
    (parse : List Nat → Except Unit VersionSpec)
    (net : String → Except Unit (List Nat)) (d : Disk)
    (minecraft_path : String) (version : MinecraftVersion) :
    Except LaunchError (VersionSpec × Disk) :=
  let spec_path := minecraft_path ++ "/versions/" ++ version.id ++ "/" ++
                   version.id ++ ".json"
  match d.fs spec_path with
  | .unreadable => .error .ioError
  | .present spec_bytes =>
    match parse spec_bytes with
    | .error _ => .error .parseError
    | .ok spec =>
      let jar_path := minecraft_path ++ "/versions/" ++ version.id ++ "/" ++
                      version.id ++ ".jar"
      match check_file hash d.fs jar_path spec.downloads.client.sha1
          spec.downloads.client.size with
      | .error _ => .error .ioError
      | .ok true => .ok (spec, d)
      | .ok false =>
        match download_minecraft_jar net d minecraft_path spec with
        | .error e => .error e
        | .ok d2 => .ok (spec, d2)
  | .absent => download_minecraft_version parse net d minecraft_path version

/-! ### minecraft.rs : Java runtime provisioning and the launch pipeline

`download_java` (minecraft.rs lines 188-268) and the surrounding slice of
`launch_minecraft_version` (lines 270-316).  Each external effect is a
parameter carrying its outcome; `.error ()` is an `.unwrap()` panic. -/

/-- The outcomes of the external effects `download_java` performs, in the
order the Rust code performs them. -/
structure JavaEnv where
  /-- `reqwest::get(&java_url).await.unwrap()` (line 199). -/
  download_response : Except Unit Unit
  /-- archive extraction into the tempdir (lines 203-213). -/
  extract_step : Except Unit Unit
  /-- `fs::read_dir(..).next().unwrap().unwrap()` (line 214). -/
  version_folder : Except Unit String
  /-- the Java-8 move/copy of the JRE into the runtime dir (lines 223-248). -/
  move_jre : Except Unit Unit
  /-- `jlink_process.status().await.unwrap()` (line 263): `.error` when no
  status could be obtained (spawn failure), `.ok code` the exit code. -/
  jlink_status : Except Unit Int

/-- `download_java` from `src/minecraft.rs` (lines 188-268).  For Java 8
the extracted JRE is moved into place; otherwise `jlink` is invoked and —
decisively for claim C5 — its exit status is only printed
(`println!("jlink exited with {0}", status)`, line 264), never inspected:
a non-zero exit code still yields `.ok ()`. -/
def download_java (jenv : JavaEnv) (version : Nat) : Except Unit Unit :=
  match jenv.download_response with
  | .error _ => .error ()
  | .ok _ =>
    match jenv.extract_step with
    | .error _ => .error ()
    | .ok _ =>
      match jenv.version_folder with
      | .error _ => .error ()
      | .ok _folder =>
        if version = 8 then jenv.move_jre
        else
          match jenv.jlink_status with
          | .error _ => .error ()
          | .ok _status => .ok ()

/-- The tail of `launch_minecraft_version` (minecraft.rs lines 293-315)
after the spec is resolved: provision Java when the runtime directory is
missing, check libraries, check assets, construct the launch arguments,
then spawn the `java` process.  The result is the spawned process's
outcome; reaching `spawn_game` at all means the launcher proceeded to
spawn. -/
def launch_after_spec (jenv : JavaEnv) (java_installed : Bool)
    (java_version : Nat) (libraries_ok assets_ok args_ok : Except Unit Unit)
    (spawn_game : Except Unit Int) : Except Unit Int :=
  match (if java_installed then .ok () else download_java jenv java_version :
      Except Unit Unit) with
  | .error _ => .error ()
  | .ok _ =>
    match libraries_ok with
    | .error _ => .error ()
    | .ok _ =>
      match assets_ok with
      | .error _ => .error ()
      | .ok _ =>
        match args_ok with
        | .error _ => .error ()
        | .ok _ => spawn_game

/-! ## Theorems -/

/-! ### C1 / C6 : the integrity checker -/

/-- C1: `check_file` returns `true` exactly when the file is present with
readable content whose byte length is the expected size and whose hash is
the expected sha1; and writing exactly `size` bytes hashing to `sha1` at
the path makes `check_file` return `true` (round trip). -/
theorem check_file_iff_and_roundtrip (hash : List Nat → String) (fs : FS)
    (file_path sha1 : String) (size : Nat) :
    (check_file hash fs file_path sha1 size = .ok true ↔
      ∃ content, fs file_path = .present content ∧ content.length = size ∧
        hash content = sha1) ∧
    (∀ content, content.length = size → hash content = sha1 →
      check_file hash (fs.write file_path content) file_path sha1 size =
        .ok true) := by
  constructor
  · constructor
    · intro h
      unfold check_file at h
      cases hfs : fs file_path with
      | absent => rw [hfs] at h; cases h
      | unreadable => rw [hfs] at h; cases h
      | present content =>
        rw [hfs] at h
        by_cases h1 : content.length = size
        · by_cases h2 : hash content = sha1
          · exact ⟨content, rfl, h1, h2⟩
          · simp [h1, h2] at h
        · simp [h1] at h
    · rintro ⟨content, hfs, hlen, hhash⟩
      unfold check_file
      rw [hfs]
      simp [hlen, hhash]
  · intro content hlen hhash
    unfold check_file FS.write
    simp [hlen, hhash]

/-- Witness for C1 at a concrete hash function, filesystem, path and
descriptor. -/
theorem check_file_iff_and_roundtrip_witness :
    check_file (fun _ => "h")
      (FS.write (fun _ => FileState.absent) "p" [0, 1]) "p" "h" 2 =
      .ok true :=
  (check_file_iff_and_roundtrip (fun _ => "h") (fun _ => FileState.absent)
    "p" "h" 2).2 [0, 1] (by decide) rfl

/-- C6 counterexample: on a filesystem whose file at `"f"` exists but
cannot be opened, `check_file` panics (the `File::open(..).unwrap()`),
rather than returning a boolean. -/
theorem check_file_panics_on_unreadable :
    check_file (fun _ => "") (fun _ => FileState.unreadable) "f" "h" 0 =
      .error () := rfl

/-- C6 amended: `check_file` returns a boolean (never raises) whenever the
file at the checked path is not in the exists-but-unreadable state; in
particular a nonexistent path yields `false`, not an error. -/
theorem check_file_total_unless_unreadable (hash : List Nat → String)
    (fs : FS) (file_path sha1 : String) (size : Nat)
    (h : fs file_path ≠ .unreadable) :
    ∃ b, check_file hash fs file_path sha1 size = .ok b := by
  cases hfs : fs file_path with
  | absent => exact ⟨false, by simp [check_file, hfs]⟩
  | unreadable => exact absurd hfs h
  | present content =>
    by_cases h1 : content.length = size
    · by_cases h2 : hash content = sha1
      · exact ⟨true, by simp [check_file, hfs, h1, h2]⟩
      · exact ⟨false, by simp [check_file, hfs, h1, h2]⟩
    · exact ⟨false, by simp [check_file, hfs, h1]⟩

/-- Witness for the amended C6 on a concrete, readable filesystem. -/
theorem check_file_total_unless_unreadable_witness :
    ∃ b, check_file (fun _ => "")
      (fun _ => FileState.absent) "f" "h" 0 = .ok b :=
  check_file_total_unless_unreadable (fun _ => "")
    (fun _ => FileState.absent) "f" "h" 0 (by decide)

/-! ### C9 : template resolution -/

/-- A template with no `${...}` token resolves to itself with no
diagnostics. -/
theorem resolve_chars_no_token (env : EnvMap) (l : List Char)
    (h : has_replacement_token l = false) :
    resolve_chars env l = (l, 0) := by
  induction l using resolve_chars.induct env with
  | case1 => simp [resolve_chars]
  | case2 rest hc name after v hv ih =>
    rw [has_replacement_token, hc] at h
    simp at h
  | case3 rest hc name after hv ih =>
    rw [has_replacement_token, hc] at h
    simp at h
  | case4 rest hc ih =>
    rw [has_replacement_token] at h
    simp only [Bool.or_eq_false_iff] at h
    have hrest : has_replacement_token ('{' :: rest) = false := by
      rw [has_replacement_token]
      · exact h.2
      · intro rest2 hcc _
        exact absurd hcc (by decide)
    rw [resolve_chars.eq_def]
    split
    · rename_i heq
      cases heq
    · rename_i rest2 heq
      injection heq with hc1 hc2
      injection hc2 with hc3 hc4
      subst hc4
      rw [if_neg (by simpa using hc), ih hrest]
    · rename_i c2 rest2 hne2 heq
      injection heq with hc1 hc2
      exact absurd hc2.symm (by intro hh; exact hne2 rest hc1.symm hh)
  | case5 c rest hne ih =>
    have h' : has_replacement_token rest = false := by
      rw [has_replacement_token.eq_def] at h
      split at h
      · rename_i heq
        cases heq
      · rename_i rest2 heq
        injection heq with hc1 hc2
        subst hc2
        rw [has_replacement_token]
        · exact (Bool.or_eq_false_iff.mp h).2
        · intro rest3 hcc _
          exact absurd hcc (by decide)
      · rename_i c2 rest2 hne2 heq
        injection heq with hc1 hc2
        subst hc2
        exact h
    rw [resolve_chars.eq_def]
    split
    · rename_i heq
      cases heq
    · rename_i rest2 heq
      injection heq with hc1 hc2
      exact absurd hc2 (by intro hh; exact hne rest2 hc1 hh)
    · rename_i c2 rest2 hne2 heq
      injection heq with hc1 hc2
      subst hc1; subst hc2
      rw [ih h']

/-- C9: template resolution is idempotent on token-free templates (it
returns the template unchanged with zero diagnostics, so a second
resolution agrees with the first), and resolving `"${x}"` under an
environment with `x` unset yields `""` with exactly one diagnostic. -/
theorem resolve_idempotent_and_unset_key :
    (∀ (env : EnvMap) (t : String), has_replacement_token t.data = false →
      resolve env t = (t, 0) ∧
      resolve env (resolve env t).1 = resolve env t) ∧
    (∀ env : EnvMap, env "x" = none → resolve env "${x}" = ("", 1)) := by
  constructor
  · intro env t h
    have h1 : resolve env t = (t, 0) := by
      unfold resolve
      rw [resolve_chars_no_token env t.data h]
    refine ⟨h1, ?_⟩
    rw [h1]
    exact h1
  · intro env hx
    unfold resolve
    have : resolve_chars env "${x}".data = ([], 1) := by
      simp [resolve_chars, hx]
    rw [this]

/-- Witness for C9: a token-free template and an unset key, both
concrete. -/
theorem resolve_idempotent_and_unset_key_witness :
    resolve (fun _ => none) "abc" = ("abc", 0) ∧
    resolve (fun _ => none) "${x}" = ("", 1) :=
  ⟨(resolve_idempotent_and_unset_key.1 (fun _ => none) "abc" (by decide)).1,
   resolve_idempotent_and_unset_key.2 (fun _ => none) rfl⟩

/-! ### C2 / C3 / C10 : rule evaluation -/

/-- C2 counterexample: a rule with action `disallow`, no os-constraint and
no feature constraint is skipped by the loop (the body only returns inside
the `os.is_some()` and `features.is_some()` blocks), so the evaluation
returns `true` — not `false` as the claim states. -/
theorem spec_rules_satisfied_bare_disallow_true :
    spec_rules_satisfied "linux" "x64"
      [{ action := "disallow", os := none, features := none }] =
      some true := by decide

/-- C2 amended: for rule lists whose actions are all well-formed and which
declare no feature constraints, evaluation returns `true` exactly when
every rule passes, where a rule with a present os-constraint passes iff
its match-state equals its action being `allow`, and a rule without an
os-constraint is skipped (it never contradicts, even with action
`disallow`); the empty list evaluates to `true`, and the single bare
`disallow` rule evaluates to `true`, not `false`. -/
theorem spec_rules_satisfied_characterization :
    (∀ (os arch : String) (rules : List Rule),
      (∀ r ∈ rules, (r.action = "allow" ∨ r.action = "disallow") ∧
        r.features = none) →
      spec_rules_satisfied os arch rules =
        some (rules.all (rule_passes os arch))) ∧
    (∀ os arch : String, spec_rules_satisfied os arch [] = some true) ∧
    (∀ os arch : String, spec_rules_satisfied os arch
      [{ action := "disallow", os := none, features := none }] =
      some true) := by
  refine ⟨?_, fun os arch => rfl, fun os arch => rfl⟩
  intro os arch rules h
  induction rules with
  | nil => simp [spec_rules_satisfied]
  | cons r rest ih =>
    obtain ⟨hact, hfeat⟩ := h r (List.mem_cons_self r rest)
    have ih' := ih (fun r hr => h r (List.mem_cons_of_mem _ hr))
    cases hact with
    | inl ha =>
      cases hos : r.os with
      | none =>
        simp [spec_rules_satisfied, rule_allow_match, ha, hos, hfeat,
          rule_passes, ih']
      | some ros =>
        by_cases hm : rule_os_matches os arch ros
        · simp [spec_rules_satisfied, rule_allow_match, ha, hos, hfeat,
            rule_passes, hm, ih']
        · simp [spec_rules_satisfied, rule_allow_match, ha, hos, hfeat,
            rule_passes, hm, ih']
    | inr ha =>
      cases hos : r.os with
      | none =>
        simp [spec_rules_satisfied, rule_allow_match, ha, hos, hfeat,
          rule_passes, ih']
      | some ros =>
        by_cases hm : rule_os_matches os arch ros
        · simp [spec_rules_satisfied, rule_allow_match, ha, hos, hfeat,
            rule_passes, hm, ih']
        · simp [spec_rules_satisfied, rule_allow_match, ha, hos, hfeat,
            rule_passes, hm, ih']

/-- Witness for the amended C2: a platform-matching allow rule and a
mismatching allow rule, evaluated concretely. -/
theorem spec_rules_satisfied_characterization_witness :
    spec_rules_satisfied "linux" "x64"
      [Rule.mk "allow" (some (RuleOS.mk (some "linux") none none)) none] =
      some (([Rule.mk "allow" (some (RuleOS.mk (some "linux") none none))
        none]).all (rule_passes "linux" "x64")) :=
  spec_rules_satisfied_characterization.1 "linux" "x64" _ (by decide)

/-- C3 counterexample: a rule that both declares a feature constraint and
carries a malformed action string makes `spec_rules_satisfied` panic
(`"Unknown rule action"`, evaluated before the feature check), so the
evaluation does not return `false` as the claim states for every list
containing a feature-constrained rule. -/
theorem spec_rules_satisfied_feature_rule_panic :
    spec_rules_satisfied "linux" "x64"
      [{ action := "unknown", os := none,
         features := some [("is_demo_user", true)] }] ≠ some false := by
  decide

/-- C3 amended: for every rule list whose actions are all well-formed
(`allow` or `disallow`), if some rule declares a feature constraint then
evaluation returns `false`, regardless of the feature names and values and
of the other rules. -/
theorem spec_rules_satisfied_feature_rule_false (os arch : String)
    (rules : List Rule)
    (hact : ∀ r ∈ rules, r.action = "allow" ∨ r.action = "disallow")
    (hfeat : ∃ r ∈ rules, r.features.isSome) :
    spec_rules_satisfied os arch rules = some false := by
  induction rules with
  | nil => obtain ⟨r, hr, -⟩ := hfeat; cases hr
  | cons r rest ih =>
    have hadef : rule_allow_match r.action = some true ∨
        rule_allow_match r.action = some false := by
      cases hact r (List.mem_cons_self r rest) with
      | inl ha => exact Or.inl (by simp [rule_allow_match, ha])
      | inr ha => exact Or.inr (by simp [rule_allow_match, ha])
    have hact' := fun r hr => hact r (List.mem_cons_of_mem _ hr)
    by_cases hf : r.features.isSome
    · cases hadef with
      | inl ha =>
        cases hos : r.os with
        | none => simp [spec_rules_satisfied, ha, hos, hf]
        | some ros =>
          by_cases hm : rule_os_matches os arch ros
          · simp [spec_rules_satisfied, ha, hos, hf, hm]
          · simp [spec_rules_satisfied, ha, hos, hf, hm]
      | inr ha =>
        cases hos : r.os with
        | none => simp [spec_rules_satisfied, ha, hos, hf]
        | some ros =>
          by_cases hm : rule_os_matches os arch ros
          · simp [spec_rules_satisfied, ha, hos, hf, hm]
          · simp [spec_rules_satisfied, ha, hos, hf, hm]
    · have hrest : ∃ r ∈ rest, r.features.isSome := by
        obtain ⟨r2, hr2, hr2f⟩ := hfeat
        cases List.mem_cons.mp hr2 with
        | inl he => exact absurd (he ▸ hr2f) (by simpa using hf)
        | inr he => exact ⟨r2, he, hr2f⟩
      have ih' := ih hact' hrest
      cases hadef with
      | inl ha =>
        cases hos : r.os with
        | none => simp [spec_rules_satisfied, ha, hos, hf, ih']
        | some ros =>
          by_cases hm : rule_os_matches os arch ros
          · simp [spec_rules_satisfied, ha, hos, hf, hm, ih']
          · simp [spec_rules_satisfied, ha, hos, hf, hm]
      | inr ha =>
        cases hos : r.os with
        | none => simp [spec_rules_satisfied, ha, hos, hf, ih']
        | some ros =>
          by_cases hm : rule_os_matches os arch ros
          · simp [spec_rules_satisfied, ha, hos, hf, hm]
          · simp [spec_rules_satisfied, ha, hos, hf, hm, ih']

/-- Witness for the amended C3: a well-formed allow rule with a feature
constraint forces the evaluation to `false`. -/
theorem spec_rules_satisfied_feature_rule_false_witness :
    spec_rules_satisfied "linux" "x64"
      [{ action := "allow", os := none,
         features := some [("is_demo_user", true)] }] = some false :=
  spec_rules_satisfied_feature_rule_false "linux" "x64" _
    (by decide) (by decide)

/-- C10: if evaluation reaches a rule whose action is neither `"allow"`
nor `"disallow"` (every earlier rule let the loop continue), the whole
evaluation panics (`panic!("Unknown rule action")`), modelled as `none`:
a malformed action is never tolerated or defaulted. -/
theorem spec_rules_satisfied_unknown_action_panics (os arch : String)
    (pre : List Rule) (bad : Rule) (post : List Rule)
    (hpre : spec_rules_satisfied os arch pre = some true)
    (hbad : rule_allow_match bad.action = none) :
    spec_rules_satisfied os arch (pre ++ bad :: post) = none := by
  induction pre with
  | nil => simp [spec_rules_satisfied, hbad]
  | cons r pre' ih =>
    simp only [List.cons_append, spec_rules_satisfied] at hpre ⊢
    cases ham : rule_allow_match r.action with
    | none => rw [ham] at hpre
    | some am =>
      rw [ham] at hpre
      simp only at hpre ⊢
      cases hos : r.os with
      | some ros =>
        rw [hos] at hpre
        simp only at hpre ⊢
        split_ifs at hpre ⊢ with h1 h2 h3
        · simp at hpre
        · simp at hpre
        · simp at hpre
        · exact ih hpre
      | none =>
        rw [hos] at hpre
        simp only at hpre ⊢
        split_ifs at hpre ⊢ with h1
        · simp at hpre
        · exact ih hpre

/-- Witness for C10: a single malformed rule at the head of the list. -/
theorem spec_rules_satisfied_unknown_action_panics_witness :
    spec_rules_satisfied "linux" "x64"
      [{ action := "sometimes", os := none, features := none }] = none :=
  spec_rules_satisfied_unknown_action_panics "linux" "x64" []
    { action := "sometimes", os := none, features := none } [] rfl rfl

/-! ### C8 : classpath assembly -/

/-- Prepending a segment to a nonempty joined tail distributes as one more
separator. -/
theorem join_sep_cons_append (sep s t : String) (l : List String) :
    join_sep sep (s :: (l ++ [t])) = s ++ sep ++ join_sep sep (l ++ [t]) := by
  cases l <;> rfl

/-- The loop's `entry ++ sep` accumulation followed by the final jar is
exactly the separator-join of the segments. -/
theorem foldr_sep_append (sep jar : String) (entries : List String) :
    (entries.foldr (fun e acc => e ++ sep ++ acc) "") ++ jar =
      join_sep sep (entries ++ [jar]) := by
  induction entries with
  | nil => simp [join_sep]
  | cons e es ih =>
    simp only [List.foldr_cons, List.cons_append]
    rw [join_sep_cons_append, ← ih]
    simp [String.append_assoc]

/-- The classpath loop produces the concatenation `entry ++ sep` over the
included libraries, in declared order. -/
theorem construct_classpath_aux_eq (os arch minecraft_path : String)
    (libs : List Library)
    (hdef : ∀ lib ∈ libs, lib_rules_defined os arch lib = true)
    (hpath : ∀ lib ∈ libs, lib_artifact_path_ok os arch lib = true) :
    construct_classpath_aux os arch minecraft_path libs =
      some ((classpath_entries os arch minecraft_path libs).foldr
        (fun e acc => e ++ path_sep os ++ acc) "") := by
  induction libs with
  | nil => simp [construct_classpath_aux, classpath_entries]
  | cons lib rest ih =>
    have hdef1 := hdef lib (List.mem_cons_self _ _)
    have hpath1 := hpath lib (List.mem_cons_self _ _)
    have ih' := ih (fun l hl => hdef l (List.mem_cons_of_mem _ hl))
      (fun l hl => hpath l (List.mem_cons_of_mem _ hl))
    cases hr : lib.rules with
    | none =>
      have hinc : lib_included os arch lib = true := by
        simp [lib_included, hr]
      cases ha : lib.downloads.artifact with
      | none =>
        simp [construct_classpath_aux, hr, classpath_entries,
          List.filterMap_cons, hinc, lib_entry, ha, ih']
      | some a =>
        cases hp : a.path with
        | none => simp [lib_artifact_path_ok, hinc, ha, hp] at hpath1
        | some p =>
          simp [construct_classpath_aux, hr, classpath_entries,
            List.filterMap_cons, hinc, lib_entry, ha, hp, ih',
            String.append_assoc]
    | some rules =>
      cases hs : spec_rules_satisfied os arch rules with
      | none => simp [lib_rules_defined, hr, hs] at hdef1
      | some b =>
        cases b with
        | false =>
          have hinc : lib_included os arch lib = false := by
            simp [lib_included, hr, hs]
          simp [construct_classpath_aux, hr, hs, classpath_entries,
            List.filterMap_cons, hinc, ih']
        | true =>
          have hinc : lib_included os arch lib = true := by
            simp [lib_included, hr, hs]
          cases ha : lib.downloads.artifact with
          | none =>
            simp [construct_classpath_aux, hr, hs, classpath_entries,
              List.filterMap_cons, hinc, lib_entry, ha, ih']
          | some a =>
            cases hp : a.path with
            | none => simp [lib_artifact_path_ok, hinc, ha, hp] at hpath1
            | some p =>
              simp [construct_classpath_aux, hr, hs, classpath_entries,
                List.filterMap_cons, hinc, lib_entry, ha, hp, ih',
                String.append_assoc]

/-- Each included library with an artifact contributes exactly one
segment. -/
theorem classpath_entries_length (os arch minecraft_path : String)
    (libs : List Library)
    (hpath : ∀ lib ∈ libs, lib_artifact_path_ok os arch lib = true) :
    (classpath_entries os arch minecraft_path libs).length =
      (libs.filter (fun lib => lib_included os arch lib &&
        lib.downloads.artifact.isSome)).length := by
  induction libs with
  | nil => rfl
  | cons lib rest ih =>
    have hpath1 := hpath lib (List.mem_cons_self _ _)
    have ih' := ih (fun l hl => hpath l (List.mem_cons_of_mem _ hl))
    by_cases hinc : lib_included os arch lib = true
    · cases ha : lib.downloads.artifact with
      | none =>
        simp [classpath_entries, List.filterMap_cons, List.filter_cons,
          hinc, lib_entry, ha]
        exact ih'
      | some a =>
        cases hp : a.path with
        | none => simp [lib_artifact_path_ok, hinc, ha, hp] at hpath1
        | some p =>
          simp [classpath_entries, List.filterMap_cons, List.filter_cons,
            hinc, lib_entry, ha, hp]
          exact ih'
    · have hinc' : lib_included os arch lib = false := by simpa using hinc
      simp [classpath_entries, List.filterMap_cons, List.filter_cons,
        hinc']
      exact ih'

/-- C8: provided every library's rules evaluate without panicking and
every included artifact declares a path, the classpath is exactly the
included libraries' segments, in declared order, joined by the platform
separator (`;` on Windows, `:` otherwise), with the version's own client
jar as the final segment — `N` library segments plus one, `N` being the
number of rule-satisfied libraries with a general artifact. -/
theorem construct_classpath_segments (os arch minecraft_path
    version_id : String) (libraries : List Library)
    (hdef : ∀ lib ∈ libraries, lib_rules_defined os arch lib = true)
    (hpath : ∀ lib ∈ libraries, lib_artifact_path_ok os arch lib = true) :
    construct_classpath os arch minecraft_path version_id libraries =
      some (join_sep (path_sep os)
        (classpath_entries os arch minecraft_path libraries ++
          [minecraft_path ++ "/versions/" ++ version_id ++ "/" ++
            version_id ++ ".jar"])) ∧
    (classpath_entries os arch minecraft_path libraries ++
      [minecraft_path ++ "/versions/" ++ version_id ++ "/" ++
        version_id ++ ".jar"]).length =
      (libraries.filter (fun lib => lib_included os arch lib &&
        lib.downloads.artifact.isSome)).length + 1 := by
  constructor
  · unfold construct_classpath
    rw [construct_classpath_aux_eq os arch minecraft_path libraries hdef
      hpath]
    simp only [Option.map_some']
    rw [foldr_sep_append]
  · rw [List.length_append,
      classpath_entries_length os arch minecraft_path libraries hpath]
    rfl

/-- Witness for C8: one unconditional library with an artifact plus the
client jar, on linux. -/
theorem construct_classpath_segments_witness :
    construct_classpath "linux" "x64" "mc" "1.0"
      [Library.mk (LibraryDownloads.mk
        (some (Download.mk (some "org/a.jar") "s" 1 "u")) none)
        "org:a" none none] =
      some (join_sep (path_sep "linux")
        (classpath_entries "linux" "x64" "mc"
          [Library.mk (LibraryDownloads.mk
            (some (Download.mk (some "org/a.jar") "s" 1 "u")) none)
            "org:a" none none] ++
          ["mc" ++ "/versions/" ++ "1.0" ++ "/" ++ "1.0" ++ ".jar"])) ∧
    (classpath_entries "linux" "x64" "mc"
      [Library.mk (LibraryDownloads.mk
        (some (Download.mk (some "org/a.jar") "s" 1 "u")) none)
        "org:a" none none] ++
      ["mc" ++ "/versions/" ++ "1.0" ++ "/" ++ "1.0" ++ ".jar"]).length =
      ([Library.mk (LibraryDownloads.mk
        (some (Download.mk (some "org/a.jar") "s" 1 "u")) none)
        "org:a" none none].filter (fun lib =>
          lib_included "linux" "x64" lib &&
          lib.downloads.artifact.isSome)).length + 1 :=
  construct_classpath_segments "linux" "x64" "mc" "1.0" _
    (by decide) (by decide)

/-! ### C4 / C7 : resolution error propagation and the cached-spec frame -/

/-- The spec path and the jar path of one version differ (`.json` vs
`.jar` suffix). -/
theorem spec_json_ne_jar (mc id : String) :
    mc ++ "/versions/" ++ id ++ "/" ++ id ++ ".json" ≠
      mc ++ "/versions/" ++ id ++ "/" ++ id ++ ".jar" := by
  intro h
  have hlen := congrArg String.length h
  simp only [String.length_append] at hlen
  have h1 : (".json" : String).length = 5 := rfl
  have h2 : (".jar" : String).length = 4 := rfl
  rw [h1, h2] at hlen
  omega

/-- C4: during resolution, an unreachable host surfaces as the network
error, malformed spec JSON as the parse error (both in the fresh-download
path and in the cached path), and a filesystem write failure as the I/O
error; each is immediately fatal (the function returns that error), and
the three kinds are pairwise distinct. -/
theorem resolution_errors_distinct :
    (∀ (parse : List Nat → Except Unit VersionSpec)
        (net : String → Except Unit (List Nat)) (d : Disk)
        (minecraft_path : String) (version : MinecraftVersion) (e : Unit),
      d.dirs (minecraft_path ++ "/versions/" ++ version.id ++ "/") = true →
      net version.url = .error e →
      download_minecraft_version parse net d minecraft_path version =
        .error .networkError) ∧
    (∀ (parse : List Nat → Except Unit VersionSpec)
        (net : String → Except Unit (List Nat)) (d : Disk)
        (minecraft_path : String) (version : MinecraftVersion)
        (spec_bytes : List Nat) (e : Unit),
      d.dirs (minecraft_path ++ "/versions/" ++ version.id ++ "/") = true →
      net version.url = .ok spec_bytes →
      d.writable (minecraft_path ++ "/versions/" ++ version.id ++ "/" ++
        version.id ++ ".json") = true →
      parse spec_bytes = .error e →
      download_minecraft_version parse net d minecraft_path version =
        .error .parseError) ∧
    (∀ (parse : List Nat → Except Unit VersionSpec)
        (net : String → Except Unit (List Nat)) (d : Disk)
        (minecraft_path : String) (version : MinecraftVersion)
        (spec_bytes : List Nat),
      d.dirs (minecraft_path ++ "/versions/" ++ version.id ++ "/") = true →
      net version.url = .ok spec_bytes →
      d.writable (minecraft_path ++ "/versions/" ++ version.id ++ "/" ++
        version.id ++ ".json") = false →
      download_minecraft_version parse net d minecraft_path version =
        .error .ioError) ∧
    (∀ (hash : List Nat → String)
        (parse : List Nat → Except Unit VersionSpec)
        (net : String → Except Unit (List Nat)) (d : Disk)
        (minecraft_path : String) (version : MinecraftVersion)
        (spec_bytes : List Nat) (e : Unit),
      d.fs (minecraft_path ++ "/versions/" ++ version.id ++ "/" ++
        version.id ++ ".json") = .present spec_bytes →
      parse spec_bytes = .error e →
      get_version_spec hash parse net d minecraft_path version =
        .error .parseError) ∧
    (LaunchError.networkError ≠ LaunchError.parseError ∧
      LaunchError.networkError ≠ LaunchError.ioError ∧
      LaunchError.parseError ≠ LaunchError.ioError) := by
  refine ⟨?_, ?_, ?_, ?_, by decide⟩
  · intro parse net d minecraft_path version e hdirs hnet
    simp [download_minecraft_version, hdirs, hnet]
  · intro parse net d minecraft_path version spec_bytes e hdirs hnet hw
      hparse
    simp [download_minecraft_version, hdirs, hnet, Disk.writeFile, hw,
      hparse]
  · intro parse net d minecraft_path version spec_bytes hdirs hnet hw
    simp [download_minecraft_version, hdirs, hnet, Disk.writeFile, hw]
  · intro hash parse net d minecraft_path version spec_bytes e hspec hparse
    simp [get_version_spec, hspec, hparse]

/-- Witness for C4: each error kind produced on concrete inputs. -/
theorem resolution_errors_distinct_witness :
    download_minecraft_version (fun _ => .error ()) (fun _ => .error ())
      (Disk.mk (fun _ => FileState.absent) (fun _ => true) (fun _ => true))
      "mc" (MinecraftVersion.mk "1" "release" "u") =
      .error .networkError ∧
    download_minecraft_version (fun _ => .error ()) (fun _ => .ok [1])
      (Disk.mk (fun _ => FileState.absent) (fun _ => true) (fun _ => true))
      "mc" (MinecraftVersion.mk "1" "release" "u") =
      .error .parseError ∧
    download_minecraft_version (fun _ => .error ()) (fun _ => .ok [1])
      (Disk.mk (fun _ => FileState.absent) (fun _ => true) (fun _ => false))
      "mc" (MinecraftVersion.mk "1" "release" "u") =
      .error .ioError ∧
    get_version_spec (fun _ => "h") (fun _ => .error ())
      (fun _ => .error ())
      (Disk.mk (fun _ => FileState.present [2]) (fun _ => true)
        (fun _ => true))
      "mc" (MinecraftVersion.mk "1" "release" "u") =
      .error .parseError :=
  ⟨resolution_errors_distinct.1 _ _ _ "mc" _ () rfl rfl,
   resolution_errors_distinct.2.1 _ _ _ "mc" _ [1] () rfl rfl rfl rfl,
   resolution_errors_distinct.2.2.1 _ _ _ "mc" _ [1] rfl rfl rfl,
   resolution_errors_distinct.2.2.2.1 _ _ _ _ "mc" _ [2] () rfl rfl⟩

/-- C7: with a cached spec whose referenced client jar fails the
integrity check, resolution re-downloads only the jar: it returns the
spec parsed from the cached file, the cached spec file's content is
unchanged, the jar now holds the re-fetched bytes, and no other file,
directory set, or write permission changes. -/
theorem get_version_spec_refetches_only_jar (hash : List Nat → String)
    (parse : List Nat → Except Unit VersionSpec)
    (net : String → Except Unit (List Nat)) (d : Disk)
    (minecraft_path : String) (version : MinecraftVersion)
    (spec_bytes jar_bytes : List Nat) (spec : VersionSpec)
    (hid : spec.id = version.id)
    (hspec : d.fs (minecraft_path ++ "/versions/" ++ version.id ++ "/" ++
      version.id ++ ".json") = .present spec_bytes)
    (hparse : parse spec_bytes = .ok spec)
    (hcheck : check_file hash d.fs (minecraft_path ++ "/versions/" ++
        version.id ++ "/" ++ version.id ++ ".jar")
      spec.downloads.client.sha1 spec.downloads.client.size = .ok false)
    (hnet : net spec.downloads.client.url = .ok jar_bytes)
    (hw : d.writable (minecraft_path ++ "/versions/" ++ version.id ++
      "/" ++ version.id ++ ".jar") = true) :
    ∃ d2, get_version_spec hash parse net d minecraft_path version =
        .ok (spec, d2) ∧
      d2.fs (minecraft_path ++ "/versions/" ++ version.id ++ "/" ++
        version.id ++ ".json") = .present spec_bytes ∧
      d2.fs (minecraft_path ++ "/versions/" ++ version.id ++ "/" ++
        version.id ++ ".jar") = .present jar_bytes ∧
      (∀ q, q ≠ minecraft_path ++ "/versions/" ++ version.id ++ "/" ++
        version.id ++ ".jar" → d2.fs q = d.fs q) ∧
      d2.dirs = d.dirs ∧ d2.writable = d.writable := by
  refine ⟨{ d with fs := fun q =>
    if q = minecraft_path ++ "/versions/" ++ version.id ++ "/" ++
        version.id ++ ".jar" then .present jar_bytes else d.fs q },
    ?_, ?_, ?_, ?_, rfl, rfl⟩
  · simp only [get_version_spec]
    rw [hspec]
    simp only [hparse]
    rw [hcheck]
    simp only [download_minecraft_jar, hid, hnet, Disk.writeFile, hw,
      if_true]
  · simp [spec_json_ne_jar minecraft_path version.id, hspec]
  · simp
  · intro q hq
    simp [hq]

/-- Witness for C7 on a concrete disk, parser, hash and network. -/
theorem get_version_spec_refetches_only_jar_witness :
    ∃ d2, get_version_spec (fun c => if c = [7] then "good" else "bad")
        (fun b => if b = [0] then
          .ok (VersionSpec.mk "1"
            (VersionDownloads.mk (Download.mk none "good" 1 "jarurl") none)
            [] "legacy" "Main" "release")
          else .error ())
        (fun u => if u = "jarurl" then .ok [7] else .error ())
        (Disk.mk (fun q =>
          if q = "mc" ++ "/versions/" ++ "1" ++ "/" ++ "1" ++ ".json" then
            .present [0]
          else if q = "mc" ++ "/versions/" ++ "1" ++ "/" ++ "1" ++
              ".jar" then .present [9]
          else .absent) (fun _ => true) (fun _ => true))
        "mc" (MinecraftVersion.mk "1" "release" "specurl") =
        .ok (VersionSpec.mk "1"
          (VersionDownloads.mk (Download.mk none "good" 1 "jarurl") none)
          [] "legacy" "Main" "release", d2) ∧
      d2.fs ("mc" ++ "/versions/" ++ "1" ++ "/" ++ "1" ++ ".json") =
        .present [0] ∧
      d2.fs ("mc" ++ "/versions/" ++ "1" ++ "/" ++ "1" ++ ".jar") =
        .present [7] ∧
      (∀ q, q ≠ "mc" ++ "/versions/" ++ "1" ++ "/" ++ "1" ++ ".jar" →
        d2.fs q = (fun q =>
          if q = "mc" ++ "/versions/" ++ "1" ++ "/" ++ "1" ++ ".json" then
            FileState.present [0]
          else if q = "mc" ++ "/versions/" ++ "1" ++ "/" ++ "1" ++
              ".jar" then FileState.present [9]
          else FileState.absent) q) ∧
      d2.dirs = (fun _ => true) ∧ d2.writable = (fun _ => true) :=
  get_version_spec_refetches_only_jar _ _ _ _ "mc"
    (MinecraftVersion.mk "1" "release" "specurl") [0] [7]
    (VersionSpec.mk "1"
      (VersionDownloads.mk (Download.mk none "good" 1 "jarurl") none)
      [] "legacy" "Main" "release")
    rfl (by simp) rfl (by simp [check_file]) rfl rfl

/-! ### C5 : a failed link step does not abort the launch -/

/-- C5 (code bug): with Java 16 provisioning where `jlink` runs but exits
with status 1 and every other step succeeds, `download_java` still
returns success — the exit status is only printed, never inspected — and
the launch pipeline proceeds all the way to spawning the game process. -/
theorem launch_spawns_despite_failed_jlink :
    download_java
      (JavaEnv.mk (.ok ()) (.ok ()) (.ok "jdk-16") (.ok ()) (.ok 1)) 16 =
      .ok () ∧
    launch_after_spec
      (JavaEnv.mk (.ok ()) (.ok ()) (.ok "jdk-16") (.ok ()) (.ok 1))
      false 16 (.ok ()) (.ok ()) (.ok ()) (.ok 0) = .ok 0 :=
  ⟨rfl, rfl⟩

end Minelaunch
